import Mathlib

/-!
Verification of the conversational-assistant bot (`bot.py`) against its
natural-language specification.  Strings are modelled as `List Char`
(Python strings are sequences of unicode code points); machine-level
concerns do not arise.  Fallible external calls (LLM, message send) are
modelled with `Except`/`Bool` oracles; database rows are records and the
row updates are pure functions on them.
-/

namespace BotModel

/-! ## String primitives (Python `lower`, `strip`, `split`, `in`) -/

/-- `str.lower` on one character, covering the ASCII letters and the Russian
alphabet used by the bot (`А`..`Я` → `а`..`я`, `Ё` → `ё`). -/
def pyLowerChar (c : Char) : Char :=
  if 'A' ≤ c ∧ c ≤ 'Z' then Char.ofNat (c.toNat + 32)
  else if 'А' ≤ c ∧ c ≤ 'Я' then Char.ofNat (c.toNat + 32)
  else if c = 'Ё' then 'ё'
  else c

/-- `str.lower` over a whole string. -/
def pyLower (s : List Char) : List Char := s.map pyLowerChar

/-- Python `str.isspace` for the whitespace characters relevant to `strip`/`split`. -/
def isPySpace (c : Char) : Bool :=
  c = ' ' || c = '\t' || c = '\n' || c = '\x0d' || c = '\x0b' || c = '\x0c'

/-- Python `str.strip()`: drop whitespace from both ends. -/
def pyStrip (s : List Char) : List Char :=
  ((s.dropWhile isPySpace).reverse.dropWhile isPySpace).reverse

/-- Helper for `pySplit`: accumulates the current (reversed) word. -/
def pySplitAux : List Char → List Char → List (List Char)
  | [], cur => if cur.isEmpty then [] else [cur.reverse]
  | c :: cs, cur =>
    if isPySpace c then
      if cur.isEmpty then pySplitAux cs [] else cur.reverse :: pySplitAux cs []
    else
      pySplitAux cs (c :: cur)

/-- Python `str.split()` with no argument: split on runs of whitespace,
dropping empty tokens. -/
def pySplit (s : List Char) : List (List Char) := pySplitAux s []

/-- `needle` equals the first `needle.length` characters of `hay`. -/
def leadsWith : List Char → List Char → Bool
  | [], _ => true
  | _ :: _, [] => false
  | a :: as, b :: bs => a == b && leadsWith as bs

/-- Python's substring test `needle in hay` (contiguous occurrence; the empty
string occurs in every string). -/
def containsSub (needle : List Char) : List Char → Bool
  | [] => needle.isEmpty
  | c :: t => leadsWith needle (c :: t) || containsSub needle t

/-! ## Knowledge ranking engine (`find_knowledge_facts`, bot.py 468-494) -/

/-- A row of the `knowledge_base` table as loaded by `load_knowledge_base`. -/
structure Fact where
  id : Int
  text : List Char
deriving DecidableEq

/-- The fixed synonym table of `find_knowledge_facts` (bot.py 470-474). -/
def synonyms : List (List Char × List (List Char)) :=
  [ ("вскс".toList,
      ["вскс".toList, "студенческий корпус спасателей".toList, "спасатели".toList]),
    ("андреев".toList,
      ["андреев".toList, "алексей евгеньевич".toList]),
    ("гуманитарные миссии".toList,
      ["гуманитарные".toList, "миссии".toList, "помощь".toList]) ]

/-- The `for syn_key, syn_list in synonyms.items()` loop of
`find_knowledge_facts` (bot.py 484-486), in accumulator style. -/
def synonymLoop (queryLower factLower : List Char) :
    List (List Char × List (List Char)) → Nat → Nat
  | [], score => score
  | (key, syns) :: rest, score =>
    synonymLoop queryLower factLower rest
      (if containsSub key queryLower then
        score + syns.countP (fun s => containsSub s factLower)
      else score)

/-- The per-fact score exactly as accumulated in `find_knowledge_facts`
(bot.py 479-486): start at 0, add 3 on a full substring match, add one per
matching query token, then run the synonym loop. -/
def factScore (queryLower factLower : List Char) : Nat :=
  synonymLoop queryLower factLower synonyms
    ((if containsSub queryLower factLower then 0 + 3 else 0)
      + (pySplit queryLower).countP (fun w => containsSub w factLower))

/-- The positively-scored `(score, fact_text)` pairs in knowledge-base order
(bot.py 476-488: only facts with `score > 0` are appended). -/
def scoredFacts (query : List Char) (kb : List Fact) : List (Nat × List Char) :=
  (kb.map (fun f => (factScore (pyStrip (pyLower query)) (pyLower f.text), f.text))).filter
    (fun p => 0 < p.1)

/-- Insert one pair into a list so that it lands after every earlier pair of
greater-or-equal score.  Folded over the list front-to-back this is exactly a
stable sort by descending score, which is what Python's
`scores.sort(key=lambda x: x[0], reverse=True)` performs (Python's sort is
stable, and `reverse=True` keeps equal-key elements in original order). -/
def insortDesc (p : Nat × List Char) : List (Nat × List Char) → List (Nat × List Char)
  | [] => [p]
  | q :: qs => if q.1 ≤ p.1 then p :: q :: qs else q :: insortDesc p qs

/-- Stable sort by descending score (bot.py 490). -/
def sortScoresDesc : List (Nat × List Char) → List (Nat × List Char)
  | [] => []
  | p :: ps => insortDesc p (sortScoresDesc ps)

/-- `find_knowledge_facts` (bot.py 468-494): score every fact, keep the
positive ones, sort stably by descending score, return the texts of the
first five. -/
def find_knowledge_facts (query : List Char) (kb : List Fact) : List (List Char) :=
  ((sortScoresDesc (scoredFacts query kb)).take 5).map Prod.snd

/-- Modelled from the spec's wording of the scoring rule (spec §4.2): "+3 if
the lowercased query is a literal substring of the lowercased fact text; +1
per query token (whitespace-split) that appears as a substring of the fact
text; plus a domain-synonym bonus — if a synonym key appears in the query,
+1 for every synonym of that key found in the fact text".  Used only to be
compared against `factScore`, which is translated from the code. -/
def specScore (query factText : List Char) : Nat :=
  (if containsSub (pyStrip (pyLower query)) (pyLower factText) then 3 else 0)
    + (pySplit (pyStrip (pyLower query))).countP
        (fun w => containsSub w (pyLower factText))
    + (synonyms.map (fun p =>
        if containsSub p.1 (pyStrip (pyLower query)) then
          p.2.countP (fun s => containsSub s (pyLower factText))
        else 0)).sum

/-! ## LLM model-fallback loop (`generate_ai_response`, bot.py 698-714) -/

/-- Classification of errors an LLM call can raise; the spec distinguishes a
"model not found/forbidden" class from every other class. -/
inductive ApiError where
  | modelNotFoundOrForbidden
  | otherError
deriving DecidableEq

/-- The user-visible message preset before the model loop (bot.py 699). -/
def apiFallbackMessage : String :=
  "Извините, не удалось получить ответ от API. Проверьте подписку на SuperGrok или X Premium+."

/-- The `for model in models_to_try` loop (bot.py 701-714): the call for each
model either succeeds (`break` with its answer) or raises; the bare
`except Exception ... continue` catches every error class and moves to the
next model, and the preset message survives only if all models fail. -/
def tryModels (call : String → Except ApiError String) :
    List String → String → String
  | [], resp => resp
  | m :: ms, resp =>
    match call m with
    | .ok r => r
    | .error _ => tryModels call ms resp

/-- `models_to_try` (bot.py 698); `XAI_MODEL` defaults to `"grok-3"`. -/
def models_to_try (xaiModel : String) : List String :=
  [xaiModel, "grok", "grok-3", "grok-4"]

/-- A concrete call oracle: the first model fails with an error that is NOT
of the "model not found/forbidden" class, every other model succeeds. -/
def callOtherThenOk : String → Except ApiError String :=
  fun m => if m = "grok-3" then Except.error ApiError.otherError else Except.ok "ответ"

/-! ## Rolling chat history (`generate_ai_response`, bot.py 650-717) -/

/-- One `{role, content}` message of the LLM history. -/
structure Msg where
  role : String
  content : String
deriving DecidableEq

/-- One pass of `generate_ai_response` over `histories[chat_id]["messages"]`
(bot.py 662-716).  `sysAppends` are the system messages the call appends
(fact prompt, recency facts, search extract — zero or more).  The appends at
lines 672/678/690/694 mutate the stored list in place; the truncation at
line 696 (`messages = messages[:1] + messages[-19:]`) rebinds the local name
to a fresh list, so it affects only what is sent to the LLM, and line 716
appends the assistant turn to the stored (untruncated) list.  Returns
`(messages sent to the LLM, new stored history)`. -/
def generateStep (stored sysAppends : List Msg) (userInput aiResp : String) :
    List Msg × List Msg :=
  let withUser := stored ++ sysAppends ++ [⟨"user", userInput⟩]
  let sent :=
    if 20 < withUser.length then
      withUser.take 1 ++ withUser.drop (withUser.length - 19)
    else withUser
  (sent, withUser ++ [⟨"assistant", aiResp⟩])

/-- The history created for a fresh chat (bot.py 658-660). -/
def initialHistory (sys : String) : List Msg := [⟨"system", sys⟩]

/-- The stored history of one chat after `n` fact-free question/answer calls
to `generate_ai_response`. -/
def storedAfter (n : Nat) : List Msg :=
  Nat.rec (initialHistory "s") (fun _ h => (generateStep h [] "q" "a").2) n

/-! ## Report workflow (bot.py 378-413, 912-941, 1289-1334) -/

/-- The fields of a `reports` row that the answer-collection flow touches. -/
structure ReportRow where
  questions : List String
  answers : List String
  status : String
deriving DecidableEq

/-- A report row together with the chat session's report fields
(`current_question_index`, `current_answers`); `none` when no fill-in
session is active. -/
structure RState where
  row : ReportRow
  sess : Option (Nat × List String)
deriving DecidableEq

/-- One inbound answer while a report session is active (bot.py 1296-1324):
append the answer to the session buffer, persist it via
`update_report_answers`, and either advance to the next question with status
`in_progress` or finish with status `completed`. -/
def answerStep (row : ReportRow) (i : Nat) (buf : List String) (a : String) : RState :=
  let buf2 := buf ++ [a]
  if i + 1 < row.questions.length then
    ⟨⟨row.questions, buf2, "in_progress"⟩, some (i + 1, buf2)⟩
  else
    ⟨⟨row.questions, buf2, "completed"⟩, none⟩

/-- States of one `(report_id, recipient)` row reachable through
`create_report` (both creation flows guarantee a nonempty question list),
the `start_report` callback (refused on completed rows, resumes at
`len(answers)`), the answer-collection loop, and the cancel action.
Database updates are modelled as succeeding. -/
inductive ReportReach : RState → Prop where
  | created (qs : List String) (hne : qs ≠ []) :
      ReportReach ⟨⟨qs, [], "pending"⟩, none⟩
  | startFill {s : RState} : ReportReach s → s.row.status ≠ "completed" →
      ReportReach ⟨s.row, some (s.row.answers.length, s.row.answers)⟩
  | answered {s : RState} (a : String) (i : Nat) (buf : List String) :
      ReportReach s → s.sess = some (i, buf) → ReportReach (answerStep s.row i buf a)
  | cancel {s : RState} : ReportReach s → ReportReach ⟨s.row, none⟩

/-- The invariant of C5, plus the session-synchronisation facts needed to
push it through the induction. -/
def ReportInv (s : RState) : Prop :=
  s.row.questions ≠ [] ∧
  s.row.answers.length ≤ s.row.questions.length ∧
  (s.row.status = "completed" → s.row.answers.length = s.row.questions.length) ∧
  (s.row.status ≠ "completed" → s.row.answers.length < s.row.questions.length) ∧
  (∀ i buf, s.sess = some (i, buf) →
    buf = s.row.answers ∧ i = buf.length ∧ i < s.row.questions.length)

/-! ## `update_report_answers` (bot.py 394-413) -/

/-- A full `reports` row. -/
structure DbReport where
  report_id : String
  user_id : Int
  questions : List String
  answers : List String
  status : String
  created_at : Int
  updated_at : Int
  reminder_sent_at : Option Int
deriving DecidableEq

/-- `update_report_answers` (bot.py 394-413): overwrite `answers`, `status`
and `updated_at = NOW()` on every row matching `(report_id, user_id)`;
`now` is the transaction time. -/
def update_report_answers (rid : String) (uid : Int) (ans : List String)
    (st : String) (now : Int) (rows : List DbReport) : List DbReport :=
  rows.map fun r =>
    if r.report_id = rid ∧ r.user_id = uid then
      { r with answers := ans, status := st, updated_at := now }
    else r

/-- A concrete freshly created report row. -/
def reportRow0 : DbReport :=
  DbReport.mk "r" 1 ["q"] [] "pending" 0 0 none

/-! ## Reminder sweep (bot.py 415-436, 1752-1776) -/

/-- The fields of a `reports` row the reminder sweep reads.  Time is an
integer number of hours. -/
structure RemRow where
  status : String
  created_at : Int
  reminder_sent_at : Option Int
deriving DecidableEq

/-- The `WHERE` clause of `check_overdue_reports` (bot.py 421-426):
`status != 'completed' AND (reminder_sent_at IS NULL OR reminder_sent_at <
now - 24h) AND created_at < now - 24h`. -/
def isOverdue (now : Int) (r : RemRow) : Bool :=
  (decide (r.status ≠ "completed")) &&
  (match r.reminder_sent_at with
    | none => true
    | some t => decide (t < now - 24)) &&
  (decide (r.created_at < now - 24))

/-- `check_overdue_reports` over an in-memory table. -/
def check_overdue_reports (now : Int) (rows : List RemRow) : List RemRow :=
  rows.filter (isOverdue now)

/-- The per-row body of `check_reminders` (bot.py 1760-1773): the
`reminder_sent_at = NOW()` update is committed first; the message send is
attempted afterwards and its failure is only logged. -/
def remindRow (now : Int) (r : RemRow) : RemRow :=
  { r with reminder_sent_at := some now }

/-- The table after one run of `check_reminders` at time `now`: every
selected row is stamped (whether or not its send succeeds). -/
def check_reminders_update (now : Int) (rows : List RemRow) : List RemRow :=
  rows.map fun r => if isOverdue now r then remindRow now r else r

/-- Events in the life of one report row: a sweep whose reminder send
succeeds, a sweep whose send raises after the stamp was committed, and a
status overwrite by `update_report_answers` (which never touches
`reminder_sent_at`). -/
inductive RemEvent where
  | sweepSend (t : Int)
  | sweepFailSend (t : Int)
  | setStatus (st : String)

/-- Run a sequence of events over one row, returning the times at which a
reminder was actually delivered. -/
def runEvents (r : RemRow) : List RemEvent → List Int
  | [] => []
  | RemEvent.sweepSend t :: es =>
    if isOverdue t r then t :: runEvents (remindRow t r) es
    else runEvents r es
  | RemEvent.sweepFailSend t :: es =>
    if isOverdue t r then runEvents (remindRow t r) es
    else runEvents r es
  | RemEvent.setStatus st :: es => runEvents { r with status := st } es

/-! ## Message-handler dispatch (`handle_message`, bot.py 964-1684) -/

/-- The per-chat `context.user_data` flags consulted by the dispatch chain
of `handle_message`; `documents_nav` models `current_mode ==
'documents_nav'` and `current_report_id` the presence of that key. -/
structure SessionFlags where
  awaiting_fio : Bool
  awaiting_report_title : Bool
  awaiting_report_questions : Bool
  awaiting_broadcast : Bool
  awaiting_fact_id : Bool
  awaiting_new_fact : Bool
  awaiting_user_id : Bool
  awaiting_admin_id : Bool
  awaiting_delete_user_id : Bool
  awaiting_federal_district : Bool
  awaiting_region : Bool
  awaiting_name : Bool
  current_report_id : Bool
  awaiting_report_week : Bool
  awaiting_export_week : Bool
  documents_nav : Bool
deriving DecidableEq

/-- The state with every flag clear (main menu, no pending prompt). -/
def SessionFlags.clear : SessionFlags :=
  ⟨false, false, false, false, false, false, false, false,
   false, false, false, false, false, false, false, false⟩

/-- Which branch of `handle_message` consumes a message. -/
inductive HandlerOutcome where
  | accessDenied
  | registrationStep (step : String)
  | pendingPromptStep (flag : String)
  | reportAnswerStep
  | menu (button : String)
  | docsNav
  | aiFallback
deriving DecidableEq

/-- The branch-selection skeleton of `handle_message` (bot.py 973-1684), in
the source's order: access gate, missing-profile registration, the
`awaiting_*` prompt flags, the active report session, the literal
menu-button comparisons (role checks happen inside the matched branch, so
they do not change which branch consumes the message), the two week-query
flags interleaved in the `elif` chain, `Назад`/`Отмена`, documents
navigation, and finally the AI fallback.  There is no branch for the button
text `"Удалить файл"`, and no branch anywhere calls a file-storage delete
(the source defines no Yandex-Disk delete operation at all). -/
def dispatch (admins users : List Int) (hasProfile : Bool) (f : SessionFlags)
    (uid : Int) (input : String) : HandlerOutcome :=
  if uid ∉ users ∧ uid ∉ admins then HandlerOutcome.accessDenied
  else if ¬hasProfile then
    (if f.awaiting_fio then HandlerOutcome.registrationStep "fio"
     else HandlerOutcome.registrationStep "start_required")
  else if f.awaiting_report_title then HandlerOutcome.pendingPromptStep "report_title"
  else if f.awaiting_report_questions then HandlerOutcome.pendingPromptStep "report_questions"
  else if f.awaiting_broadcast then HandlerOutcome.pendingPromptStep "broadcast"
  else if f.awaiting_fact_id then HandlerOutcome.pendingPromptStep "fact_id"
  else if f.awaiting_new_fact then HandlerOutcome.pendingPromptStep "new_fact"
  else if f.awaiting_user_id then HandlerOutcome.pendingPromptStep "user_id"
  else if f.awaiting_admin_id then HandlerOutcome.pendingPromptStep "admin_id"
  else if f.awaiting_delete_user_id then HandlerOutcome.pendingPromptStep "delete_user_id"
  else if f.awaiting_federal_district then HandlerOutcome.registrationStep "federal_district"
  else if f.awaiting_region then HandlerOutcome.registrationStep "region"
  else if f.awaiting_name then HandlerOutcome.registrationStep "name"
  else if f.current_report_id then HandlerOutcome.reportAnswerStep
  else if input = "Загрузить файл" then HandlerOutcome.menu "Загрузить файл"
  else if input = "Документы для РО" then HandlerOutcome.menu "Документы для РО"
  else if input = "Архив документов РО" then HandlerOutcome.menu "Архив документов РО"
  else if input = "Управление пользователями" then HandlerOutcome.menu "Управление пользователями"
  else if input = "Рассылка" then HandlerOutcome.menu "Рассылка"
  else if input = "Рассылка пользователям" then HandlerOutcome.menu "Рассылка пользователям"
  else if input = "Рассылка админам" then HandlerOutcome.menu "Рассылка админам"
  else if input = "Отчеты" then HandlerOutcome.menu "Отчеты"
  else if input = "Добавить пользователя" then HandlerOutcome.menu "Добавить пользователя"
  else if input = "Добавить администратора" then HandlerOutcome.menu "Добавить администратора"
  else if input = "Список пользователей" then HandlerOutcome.menu "Список пользователей"
  else if input = "Список администраторов" then HandlerOutcome.menu "Список администраторов"
  else if input = "Удалить пользователя" then HandlerOutcome.menu "Удалить пользователя"
  else if input = "Все факты (с ID)" then HandlerOutcome.menu "Все факты (с ID)"
  else if input = "Добавить факт" then HandlerOutcome.menu "Добавить факт"
  else if input = "Удалить факт" then HandlerOutcome.menu "Удалить факт"
  else if input = "Просмотреть отчеты" then HandlerOutcome.menu "Просмотреть отчеты"
  else if f.awaiting_report_week then HandlerOutcome.pendingPromptStep "report_week"
  else if input = "Выгрузить отчеты в Excel" then HandlerOutcome.menu "Выгрузить отчеты в Excel"
  else if f.awaiting_export_week then HandlerOutcome.pendingPromptStep "export_week"
  else if input = "Назад" then HandlerOutcome.menu "Назад"
  else if input = "Отмена" then HandlerOutcome.menu "Отмена"
  else if f.documents_nav then HandlerOutcome.docsNav
  else HandlerOutcome.aiFallback

/-- Number of file-storage delete calls a branch issues.  The source defines
no Yandex-Disk delete function and no handler branch performs a file delete,
so this is zero on every branch (the spec's `delete(path)` adapter operation
has no counterpart in the code). -/
def yandexDeleteCalls : HandlerOutcome → Nat := fun _ => 0

/-- `get_user_name` for a principal without a profile (bot.py 720-722). -/
def defaultUserName : String := "Пользователь"

/-- The access-denial reply of `handle_message` (bot.py 974): it does not
include the principal's numeric id. -/
def handleMessageDenial (userName : String) : String :=
  userName ++ ", извините, у вас нет доступа."

/-- The access-denial reply of `send_welcome` (bot.py 729): it does include
the principal's numeric id. -/
def sendWelcomeDenial (userName : String) (uid : Int) : String :=
  userName ++ ", ваш user_id: " ++ toString uid ++ "\nИзвините, у вас нет доступа."

/-- The entry of `handle_message` (bot.py 964-976): `log_request` appends the
inbound message to the request log at line 971, BEFORE the access gate runs;
then the gate picks the owning branch.  Returns the new request log and the
selected branch. -/
def handleMessageGate (log : List (Int × String)) (admins users : List Int)
    (hasProfile : Bool) (f : SessionFlags) (uid : Int) (input : String) :
    List (Int × String) × HandlerOutcome :=
  (log ++ [(uid, input)], dispatch admins users hasProfile f uid input)

/-! ## Theorems -/

/-- Score-ordering relation used by the descending sort. -/
theorem mem_insortDesc {x p : Nat × List Char} {l : List (Nat × List Char)}
    (h : x ∈ insortDesc p l) : x = p ∨ x ∈ l := by
  induction l with
  | nil => simpa [insortDesc] using h
  | cons q qs ih =>
    by_cases hc : q.1 ≤ p.1
    · simpa [insortDesc, hc] using h
    · simp only [insortDesc, if_neg hc, List.mem_cons] at h
      rcases h with h | h
      · exact Or.inr (by simp [h])
      · rcases ih h with h | h
        · exact Or.inl h
        · exact Or.inr (by simp [h])

/-- Inserting into a non-increasing list keeps it non-increasing. -/
theorem pairwise_insortDesc {p : Nat × List Char} {l : List (Nat × List Char)}
    (h : l.Pairwise (fun a b => b.1 ≤ a.1)) :
    (insortDesc p l).Pairwise (fun a b => b.1 ≤ a.1) := by
  induction l with
  | nil => simp [insortDesc]
  | cons q qs ih =>
    rcases List.pairwise_cons.mp h with ⟨hq, hqs⟩
    by_cases hc : q.1 ≤ p.1
    · simp only [insortDesc, if_pos hc]
      refine List.pairwise_cons.mpr ⟨?_, h⟩
      intro b hb
      rcases List.mem_cons.mp hb with rfl | hb
      · exact hc
      · exact le_trans (hq b hb) hc
    · simp only [insortDesc, if_neg hc]
      refine List.pairwise_cons.mpr ⟨?_, ih hqs⟩
      intro b hb
      rcases mem_insortDesc hb with rfl | hb
      · exact Nat.le_of_lt (Nat.lt_of_not_le hc)
      · exact hq b hb

/-- `sortScoresDesc` sorts by non-increasing score. -/
theorem pairwise_sortScoresDesc (l : List (Nat × List Char)) :
    (sortScoresDesc l).Pairwise (fun a b => b.1 ≤ a.1) := by
  induction l with
  | nil => simp [sortScoresDesc]
  | cons p ps ih => exact pairwise_insortDesc ih

/-- Stability of one insertion: restricted to any fixed score, inserting
changes nothing except placing the (later) element behind the earlier ones
of the same score. -/
theorem filter_insortDesc (s : Nat) (p : Nat × List Char) (l : List (Nat × List Char)) :
    (insortDesc p l).filter (fun q => q.1 == s) =
      if p.1 = s then p :: l.filter (fun q => q.1 == s)
      else l.filter (fun q => q.1 == s) := by
  induction l with
  | nil =>
    simp only [insortDesc, List.filter_cons, List.filter_nil]
    by_cases hp : p.1 = s
    · simp [hp]
    · simp [hp]
  | cons q qs ih =>
    by_cases hc : q.1 ≤ p.1
    · rw [show insortDesc p (q :: qs) = p :: q :: qs by simp [insortDesc, hc]]
      simp only [List.filter_cons]
      by_cases hp : p.1 = s
      · simp [hp]
      · simp [hp]
    · have hlt : p.1 < q.1 := Nat.lt_of_not_le hc
      rw [show insortDesc p (q :: qs) = q :: insortDesc p qs by simp [insortDesc, hc]]
      simp only [List.filter_cons, ih]
      by_cases hp : p.1 = s
      · have hq : ¬ q.1 = s := by omega
        simp [hp, hq]
      · simp [hp]

/-- Stability of the whole sort: the subsequence of any fixed score is
unchanged, i.e. equal-scoring facts keep their original relative order. -/
theorem filter_sortScoresDesc (s : Nat) (l : List (Nat × List Char)) :
    (sortScoresDesc l).filter (fun q => q.1 == s) = l.filter (fun q => q.1 == s) := by
  induction l with
  | nil => simp [sortScoresDesc]
  | cons p ps ih =>
    by_cases hp : p.1 = s <;>
      simp [sortScoresDesc, filter_insortDesc, List.filter_cons, hp, ih]

/-- C1: for every query and knowledge base, `find_knowledge_facts` returns at
most 5 fact texts; they are the texts of the first five entries of a sort of
the positively-scored facts by non-increasing score; that sort is stable
(for each score value the original relative order is preserved); and when no
fact scores above zero the result is empty. -/
theorem find_knowledge_facts_top5_sorted_stable (query : List Char) (kb : List Fact) :
    (find_knowledge_facts query kb).length ≤ 5
  ∧ find_knowledge_facts query kb
      = ((sortScoresDesc (scoredFacts query kb)).take 5).map Prod.snd
  ∧ (sortScoresDesc (scoredFacts query kb)).Pairwise (fun a b => b.1 ≤ a.1)
  ∧ (∀ s : Nat, (sortScoresDesc (scoredFacts query kb)).filter (fun q => q.1 == s)
      = (scoredFacts query kb).filter (fun q => q.1 == s))
  ∧ ((∀ f ∈ kb, factScore (pyStrip (pyLower query)) (pyLower f.text) = 0) →
      find_knowledge_facts query kb = []) := by
  refine ⟨?_, rfl, pairwise_sortScoresDesc _, fun s => filter_sortScoresDesc s _, ?_⟩
  · have h1 : (find_knowledge_facts query kb).length
        = min 5 (sortScoresDesc (scoredFacts query kb)).length := by
      simp [find_knowledge_facts, List.length_take]
    omega
  · intro h
    have hempty : scoredFacts query kb = [] := by
      unfold scoredFacts
      rw [List.filter_eq_nil_iff]
      intro a ha
      rcases List.mem_map.mp ha with ⟨f, hf, rfl⟩
      simp [h f hf]
    simp [find_knowledge_facts, hempty, sortScoresDesc]

/-- Witness for the hypothesis-bearing conjunct of C1: a fact with no
overlap with the query scores zero and the result is empty. -/
theorem find_knowledge_facts_top5_sorted_stable_witness :
    find_knowledge_facts "зима".toList [⟨1, "лето".toList⟩] = [] :=
  (find_knowledge_facts_top5_sorted_stable "зима".toList [⟨1, "лето".toList⟩]).2.2.2.2
    (by decide)

/-- The synonym for-loop computes the sum of the per-key bonuses. -/
theorem synonymLoop_eq (ql fl : List Char)
    (L : List (List Char × List (List Char))) (acc : Nat) :
    synonymLoop ql fl L acc =
      acc + (L.map (fun p =>
        if containsSub p.1 ql then p.2.countP (fun s => containsSub s fl) else 0)).sum := by
  induction L generalizing acc with
  | nil => simp [synonymLoop]
  | cons h t ih =>
    obtain ⟨key, syns⟩ := h
    by_cases hc : containsSub key ql = true
    · simp only [synonymLoop, if_pos hc, ih, List.map_cons, List.sum_cons]
      omega
    · simp only [synonymLoop, if_neg hc, ih, List.map_cons, List.sum_cons]
      simp [hc]

/-- The accumulated score of the code equals the spec's closed formula. -/
theorem factScore_eq_specScore (query factText : List Char) :
    factScore (pyStrip (pyLower query)) (pyLower factText) = specScore query factText := by
  unfold factScore specScore
  rw [synonymLoop_eq]

/-- C2: the relevance score `find_knowledge_facts` computes for each fact is
exactly the spec's formula (`specScore`): 3 for a literal substring match of
the lowercased trimmed query, plus 1 per whitespace-split query token found
in the fact text, plus 1 per synonym found in the fact text for each synonym
key occurring in the query. -/
theorem find_knowledge_facts_score_formula (query : List Char) (kb : List Fact) :
    scoredFacts query kb
      = (kb.map (fun f => (specScore query f.text, f.text))).filter (fun p => 0 < p.1)
  ∧ (∀ f : Fact, factScore (pyStrip (pyLower query)) (pyLower f.text)
      = specScore query f.text) := by
  constructor
  · unfold scoredFacts
    have h : (fun f : Fact => (factScore (pyStrip (pyLower query)) (pyLower f.text), f.text))
        = (fun f : Fact => (specScore query f.text, f.text)) := by
      funext f
      rw [factScore_eq_specScore]
    rw [h]
  · intro f
    exact factScore_eq_specScore query f.text

/-- C3 counterexample: the first candidate model fails with an error that is
not of the "model not found/forbidden" class, yet the loop still tries the
next candidate and returns its answer instead of a terminal error string. -/
theorem tryModels_other_error_not_terminal :
    tryModels callOtherThenOk (models_to_try "grok-3") apiFallbackMessage = "ответ"
  ∧ ("ответ" : String) ≠ apiFallbackMessage := by
  constructor
  · rfl
  · decide

/-- C3 (amended): the loop treats EVERY error class as "try the next
candidate": a success returns immediately, any error moves on, and the
preset error string is the result exactly when all candidates fail. -/
theorem tryModels_retries_every_error_class (call : String → Except ApiError String)
    (ms : List String) (d : String) :
    ((∀ m ∈ ms, ∃ e, call m = Except.error e) → tryModels call ms d = d)
  ∧ (∀ m ms2 r, call m = Except.ok r → tryModels call (m :: ms2) d = r)
  ∧ (∀ m e ms2, call m = Except.error e →
      tryModels call (m :: ms2) d = tryModels call ms2 d) := by
  refine ⟨?_, ?_, ?_⟩
  · intro h
    induction ms with
    | nil => rfl
    | cons m ms ih =>
      obtain ⟨e, he⟩ := h m (List.mem_cons_self m ms)
      simp only [tryModels, he]
      exact ih (fun m2 hm2 => h m2 (List.mem_cons_of_mem _ hm2))
  · intro m ms2 r h
    simp [tryModels, h]
  · intro m e ms2 h
    simp [tryModels, h]

/-- Witness for C3's amended theorem: with an oracle that always fails, the
user-visible message is the preset error string. -/
theorem tryModels_retries_every_error_class_witness :
    tryModels (fun _ => Except.error ApiError.otherError) ["grok-3", "grok"]
      apiFallbackMessage = apiFallbackMessage :=
  (tryModels_retries_every_error_class (fun _ => Except.error ApiError.otherError)
      ["grok-3", "grok"] apiFallbackMessage).1
    (fun _ _ => ⟨ApiError.otherError, rfl⟩)

/-- C4 counterexample: after ten ordinary question/answer calls the stored
history `histories[chat_id]["messages"]` holds 21 messages — the bound
"head system message plus at most 19 turns" (20 messages) is exceeded,
because line 696 truncates only the local copy sent to the LLM. -/
theorem stored_history_exceeds_bound :
    (storedAfter 10).length = 21 ∧ ¬ (storedAfter 10).length ≤ 20 := by
  constructor
  · rfl
  · decide

/-- C4 (amended): the list SENT to the LLM is bounded by 20 messages — when
the pre-truncation list exceeds 20 it is cut to the head (system) message
plus the 19 most recent — but the STORED history is never truncated: it
always becomes the untruncated list plus the assistant turn, growing by
`sysAppends.length + 2` on every call. -/
theorem generateStep_truncates_sent_not_stored (stored sysAppends : List Msg)
    (userInput aiResp : String) :
    (generateStep stored sysAppends userInput aiResp).1.length ≤ 20
  ∧ (20 < (stored ++ sysAppends ++ [Msg.mk "user" userInput]).length →
      (generateStep stored sysAppends userInput aiResp).1
        = (stored ++ sysAppends ++ [Msg.mk "user" userInput]).take 1
          ++ (stored ++ sysAppends ++ [Msg.mk "user" userInput]).drop
              ((stored ++ sysAppends ++ [Msg.mk "user" userInput]).length - 19))
  ∧ ((stored ++ sysAppends ++ [Msg.mk "user" userInput]).length ≤ 20 →
      (generateStep stored sysAppends userInput aiResp).1
        = stored ++ sysAppends ++ [Msg.mk "user" userInput])
  ∧ (generateStep stored sysAppends userInput aiResp).2
      = stored ++ sysAppends ++ [Msg.mk "user" userInput] ++ [Msg.mk "assistant" aiResp]
  ∧ (generateStep stored sysAppends userInput aiResp).2.length
      = stored.length + sysAppends.length + 2 := by
  have hfst : (generateStep stored sysAppends userInput aiResp).1
      = if 20 < (stored ++ sysAppends ++ [Msg.mk "user" userInput]).length then
          (stored ++ sysAppends ++ [Msg.mk "user" userInput]).take 1
            ++ (stored ++ sysAppends ++ [Msg.mk "user" userInput]).drop
                ((stored ++ sysAppends ++ [Msg.mk "user" userInput]).length - 19)
        else stored ++ sysAppends ++ [Msg.mk "user" userInput] := rfl
  have hsnd : (generateStep stored sysAppends userInput aiResp).2
      = stored ++ sysAppends ++ [Msg.mk "user" userInput] ++ [Msg.mk "assistant" aiResp] := rfl
  refine ⟨?_, ?_, ?_, hsnd, ?_⟩
  · rw [hfst]
    by_cases h : 20 < (stored ++ sysAppends ++ [Msg.mk "user" userInput]).length
    · rw [if_pos h, List.length_append, List.length_take, List.length_drop]
      omega
    · rw [if_neg h]
      omega
  · intro h
    rw [hfst, if_pos h]
  · intro h
    rw [hfst, if_neg (by omega)]
  · rw [hsnd]
    simp only [List.length_append, List.length_cons, List.length_nil]
    try omega

/-- Witness for C4's amended theorem: a short history passes through
untruncated. -/
theorem generateStep_truncates_sent_not_stored_witness :
    (generateStep [Msg.mk "system" "s"] [] "q" "a").1
      = [Msg.mk "system" "s", Msg.mk "user" "q"] := by
  have h := (generateStep_truncates_sent_not_stored [Msg.mk "system" "s"] [] "q" "a").2.2.1
    (by decide)
  simpa using h

/-- Every reachable report state satisfies the C5 invariant. -/
theorem reportReach_inv {s : RState} (h : ReportReach s) : ReportInv s := by
  induction h with
  | created qs hne =>
    refine ⟨hne, by simp, ?_, ?_, ?_⟩
    · intro hc
      exact absurd hc (by decide : ("pending" : String) ≠ "completed")
    · intro _
      simpa using List.length_pos.mpr hne
    · intro i buf hc
      simp at hc
  | @startFill s hs hne ih =>
    obtain ⟨h1, h2, h3, h4, _⟩ := ih
    refine ⟨h1, h2, h3, h4, ?_⟩
    intro i buf hc
    simp only [Option.some.injEq, Prod.mk.injEq] at hc
    obtain ⟨hi, hbuf⟩ := hc
    subst hi
    subst hbuf
    exact ⟨rfl, rfl, h4 hne⟩
  | @answered s a i buf hs hsess ih =>
    obtain ⟨h1, _, _, _, h5⟩ := ih
    obtain ⟨hbuf, hi, hlt⟩ := h5 i buf hsess
    unfold answerStep
    by_cases hnext : i + 1 < s.row.questions.length
    · rw [if_pos hnext]
      refine ⟨h1, ?_, ?_, ?_, ?_⟩
      · simp only [List.length_append, List.length_cons, List.length_nil]
        omega
      · intro hc
        exact absurd hc (by decide : ("in_progress" : String) ≠ "completed")
      · intro _
        simp only [List.length_append, List.length_cons, List.length_nil]
        omega
      · intro j b hc
        simp only [Option.some.injEq, Prod.mk.injEq] at hc
        obtain ⟨hj, hb⟩ := hc
        subst hj
        subst hb
        refine ⟨rfl, ?_, hnext⟩
        simp only [List.length_append, List.length_cons, List.length_nil]
        omega
    · rw [if_neg hnext]
      refine ⟨h1, ?_, ?_, ?_, ?_⟩
      · simp only [List.length_append, List.length_cons, List.length_nil]
        omega
      · intro _
        simp only [List.length_append, List.length_cons, List.length_nil]
        omega
      · intro hne
        exact absurd rfl hne
      · intro j b hc
        simp at hc
  | @cancel s hs ih =>
    obtain ⟨h1, h2, h3, h4, _⟩ := ih
    exact ⟨h1, h2, h3, h4, fun i buf hc => by simp at hc⟩

/-- C5 counterexample: a reachable single-question report whose FIRST
recorded answer moves the status directly to `completed`, never passing
through `in_progress`. -/
theorem first_answer_can_skip_in_progress :
    ReportReach ⟨⟨["q"], [], "pending"⟩, some (0, [])⟩
  ∧ answerStep ⟨["q"], [], "pending"⟩ 0 [] "a"
      = ⟨⟨["q"], ["a"], "completed"⟩, none⟩
  ∧ ("completed" : String) ≠ "in_progress" := by
  refine ⟨?_, by decide, by decide⟩
  exact ReportReach.startFill (ReportReach.created ["q"] (by decide)) (by decide)

/-- C5 (amended): every reachable report state satisfies
`len(answers) ≤ len(questions)` and `completed` status implies equality; an
answer step writes `in_progress` when the answered question is not the last
and `completed` when it is — so the first answer yields `in_progress`
exactly when the report has more than one question, while a single-question
report moves pending → completed directly. -/
theorem report_invariants_and_status_transitions (s : RState) (h : ReportReach s) :
    s.row.answers.length ≤ s.row.questions.length
  ∧ (s.row.status = "completed" → s.row.answers.length = s.row.questions.length)
  ∧ (∀ i buf a, s.sess = some (i, buf) →
      (answerStep s.row i buf a).row.status
        = (if i + 1 < s.row.questions.length then "in_progress" else "completed")
      ∧ (answerStep s.row i buf a).row.answers.length ≤ s.row.questions.length
      ∧ (buf = [] → 1 < s.row.questions.length →
          (answerStep s.row i buf a).row.status = "in_progress")
      ∧ (i + 1 = s.row.questions.length →
          (answerStep s.row i buf a).row.status = "completed")) := by
  obtain ⟨h1, h2, h3, h4, h5⟩ := reportReach_inv h
  refine ⟨h2, h3, ?_⟩
  intro i buf a hsess
  obtain ⟨hbuf, hi, hlt⟩ := h5 i buf hsess
  unfold answerStep
  by_cases hnext : i + 1 < s.row.questions.length
  · rw [if_pos hnext]
    refine ⟨by rw [if_pos hnext], ?_, fun _ _ => rfl, ?_⟩
    · simp only [List.length_append, List.length_cons, List.length_nil]
      omega
    · intro he
      exact absurd hnext (by omega)
  · rw [if_neg hnext]
    refine ⟨by rw [if_neg hnext], ?_, ?_, fun _ => rfl⟩
    · simp only [List.length_append, List.length_cons, List.length_nil]
      omega
    · intro hb hq
      subst hb
      simp only [List.length_nil] at hi
      exact absurd hq (by omega)

/-- Witness for C5's amended theorem at a freshly created report. -/
theorem report_invariants_and_status_transitions_witness :
    (RState.mk (ReportRow.mk ["q"] [] "pending") none).row.answers.length
      ≤ (RState.mk (ReportRow.mk ["q"] [] "pending") none).row.questions.length :=
  (report_invariants_and_status_transitions _ (ReportReach.created ["q"] (by decide))).1

/-- After a reminder is stamped at time `t`, every later delivery for the
row happens strictly more than 24 hours after `t`. -/
theorem runEvents_gap {r : RemRow} {t : Int} (hr : r.reminder_sent_at = some t)
    (es : List RemEvent) : ∀ x ∈ runEvents r es, t + 24 < x := by
  induction es generalizing r t with
  | nil =>
    intro x hx
    simp [runEvents] at hx
  | cons e es ih =>
    cases e with
    | sweepSend u =>
      by_cases hov : isOverdue u r = true
      · have hlt : t + 24 < u := by
          have h2 := hov
          unfold isOverdue at h2
          rw [hr] at h2
          simp only [Bool.and_eq_true, decide_eq_true_eq] at h2
          omega
        intro x hx
        simp only [runEvents, if_pos hov, List.mem_cons] at hx
        rcases hx with rfl | hx
        · exact hlt
        · have h3 := ih (r := remindRow u r) (t := u) rfl x hx
          omega
      · intro x hx
        simp only [runEvents, if_neg hov] at hx
        exact ih hr x hx
    | sweepFailSend u =>
      by_cases hov : isOverdue u r = true
      · intro x hx
        simp only [runEvents, if_pos hov] at hx
        have hlt : t + 24 < u := by
          have h2 := hov
          unfold isOverdue at h2
          rw [hr] at h2
          simp only [Bool.and_eq_true, decide_eq_true_eq] at h2
          omega
        have h3 := ih (r := remindRow u r) (t := u) rfl x hx
        omega
      · intro x hx
        simp only [runEvents, if_neg hov] at hx
        exact ih hr x hx
    | setStatus st =>
      intro x hx
      simp only [runEvents] at hx
      exact ih (r := { r with status := st }) hr x hx

/-- The delivered reminder times of any event sequence are pairwise more
than 24 hours apart. -/
theorem runEvents_pairwise (r : RemRow) (es : List RemEvent) :
    (runEvents r es).Pairwise (fun a b => a + 24 < b) := by
  induction es generalizing r with
  | nil => simp [runEvents]
  | cons e es ih =>
    cases e with
    | sweepSend u =>
      by_cases hov : isOverdue u r = true
      · simp only [runEvents, if_pos hov]
        exact List.pairwise_cons.mpr ⟨runEvents_gap rfl es, ih _⟩
      · simp only [runEvents, if_neg hov]
        exact ih r
    | sweepFailSend u =>
      by_cases hov : isOverdue u r = true
      · simp only [runEvents, if_pos hov]
        exact ih _
      · simp only [runEvents, if_neg hov]
        exact ih r
    | setStatus st =>
      simp only [runEvents]
      exact ih _

/-- C6: the sweep selects exactly the incomplete rows whose reminder stamp
is absent or older than 24 hours and whose creation is older than 24 hours;
every selected row gets `reminder_sent_at` stamped to the sweep time; and
consequently the delivered reminders for any one row are always more than
24 hours apart. -/
theorem reminder_sweep_selection_and_spacing :
    (∀ (now : Int) (rows : List RemRow) (r : RemRow),
      r ∈ check_overdue_reports now rows ↔ r ∈ rows ∧ isOverdue now r = true)
  ∧ (∀ (now : Int) (r : RemRow), (remindRow now r).reminder_sent_at = some now)
  ∧ (∀ (now : Int) (rows : List RemRow) (r : RemRow), r ∈ rows →
      isOverdue now r = true → remindRow now r ∈ check_reminders_update now rows)
  ∧ (∀ (r : RemRow) (es : List RemEvent),
      (runEvents r es).Pairwise (fun a b => a + 24 < b)) := by
  refine ⟨?_, fun _ _ => rfl, ?_, runEvents_pairwise⟩
  · intro now rows r
    simp [check_overdue_reports, List.mem_filter]
  · intro now rows r hm hov
    unfold check_reminders_update
    exact List.mem_map.mpr ⟨r, hm, by rw [if_pos hov]⟩

/-- Witness for C6 at a concrete overdue row. -/
theorem reminder_sweep_selection_and_spacing_witness :
    remindRow 30 (RemRow.mk "pending" 0 none)
      ∈ check_reminders_update 30 [RemRow.mk "pending" 0 none] :=
  reminder_sweep_selection_and_spacing.2.2.1 30 [RemRow.mk "pending" 0 none]
    (RemRow.mk "pending" 0 none) (by decide) (by decide)

/-- C7 counterexample: two successive calls of `update_report_answers` with
identical answers and status but at different transaction times leave a
different persisted row (`updated_at`) than a single call does. -/
theorem update_report_answers_not_idempotent :
    update_report_answers "r" 1 ["a"] "in_progress" 2
        (update_report_answers "r" 1 ["a"] "in_progress" 1 [reportRow0])
      ≠ update_report_answers "r" 1 ["a"] "in_progress" 1 [reportRow0] := by
  decide

/-- C7 (amended): with the same answers and status, a second call absorbs
the first — the rows equal those of a single call performed at the second
call's time — and at a fixed transaction time the operation is exactly
idempotent; only `updated_at` distinguishes the twice-updated row from the
once-updated one. -/
theorem update_report_answers_idempotent_up_to_timestamp
    (rid : String) (uid : Int) (ans : List String) (st : String) (t1 t2 : Int)
    (rows : List DbReport) :
    update_report_answers rid uid ans st t2 (update_report_answers rid uid ans st t1 rows)
      = update_report_answers rid uid ans st t2 rows
  ∧ update_report_answers rid uid ans st t1 (update_report_answers rid uid ans st t1 rows)
      = update_report_answers rid uid ans st t1 rows := by
  constructor <;>
  · unfold update_report_answers
    rw [List.map_map]
    apply List.map_congr_left
    intro r _
    by_cases h : r.report_id = rid ∧ r.user_id = uid
    · simp [h]
    · simp [h]

/-- C8 counterexample: with no pending flags, a non-admin user's
`"Удалить файл"` message is consumed by the AI fallback branch — the reply
is an AI-generated answer, not an access-denied message. -/
theorem delete_file_falls_to_ai_fallback :
    dispatch [1] [1, 2] true SessionFlags.clear 2 "Удалить файл"
      = HandlerOutcome.aiFallback
  ∧ HandlerOutcome.aiFallback ≠ HandlerOutcome.accessDenied := by
  decide

/-- C8 (amended): for every principal in the user set, `"Удалить файл"`
with all session flags clear matches no handler branch and falls through to
the AI fallback; no file-storage delete call is issued (the source contains
no file-delete operation at all). -/
theorem delete_file_button_unhandled (admins users : List Int) (uid : Int)
    (h : uid ∈ users) :
    dispatch admins users true SessionFlags.clear uid "Удалить файл"
      = HandlerOutcome.aiFallback
  ∧ yandexDeleteCalls
      (dispatch admins users true SessionFlags.clear uid "Удалить файл") = 0 := by
  have hd : dispatch admins users true SessionFlags.clear uid "Удалить файл"
      = HandlerOutcome.aiFallback := by
    unfold dispatch
    rw [if_neg (fun hc => hc.1 h)]
    rfl
  exact ⟨hd, by rw [hd]; rfl⟩

/-- Witness for C8's amended theorem. -/
theorem delete_file_button_unhandled_witness :
    dispatch [1] [5, 6] true SessionFlags.clear 5 "Удалить файл"
      = HandlerOutcome.aiFallback :=
  (delete_file_button_unhandled [1] [5, 6] 5 (by decide)).1

/-- The empty needle occurs in every string. -/
theorem containsSub_nil (hay : List Char) : containsSub [] hay = true := by
  cases hay <;> simp [containsSub, leadsWith]

/-- A string starts with itself followed by anything. -/
theorem leadsWith_refl_append (n b : List Char) : leadsWith n (n ++ b) = true := by
  induction n with
  | nil => rfl
  | cons c cs ih => simp [leadsWith, ih]

/-- A string occurs in any surrounding context. -/
theorem containsSub_append (n a b : List Char) : containsSub n (a ++ n ++ b) = true := by
  induction a with
  | nil =>
    cases n with
    | nil => exact containsSub_nil b
    | cons c cs =>
      show (leadsWith (c :: cs) ((c :: cs) ++ b) || containsSub (c :: cs) (cs ++ b)) = true
      rw [leadsWith_refl_append]
      rfl
  | cons x xs ih =>
    show (leadsWith n (x :: (xs ++ n ++ b)) || containsSub n (xs ++ n ++ b)) = true
    rw [ih, Bool.or_true]

/-- C9 counterexample: for a principal in neither role set, the inbound
message is appended to the request log BEFORE the access gate runs (a state
mutation), and the text-handler's denial reply does not contain the
principal's numeric id. -/
theorem denial_lacks_id_and_log_mutated :
    handleMessageGate [] [1] [2] false SessionFlags.clear 12345 "привет"
      = ([((12345 : Int), "привет")], HandlerOutcome.accessDenied)
  ∧ containsSub (toString (12345 : Int)).toList
      (handleMessageDenial defaultUserName).toList = false
  ∧ ([] : List (Int × String)) ≠ [((12345 : Int), "привет")] := by
  refine ⟨by decide, by decide, by decide⟩

/-- C9 (amended): a principal in neither set is consumed by the access
gate — the reply is the denial message and no other branch runs — but the
inbound message has already been appended to the request log, and only the
`/start` handler's denial contains the principal's numeric id (the
text-handler denial is id-free). -/
theorem access_gate_denies_and_stops (log : List (Int × String))
    (admins users : List Int) (hasProfile : Bool) (f : SessionFlags)
    (uid : Int) (input : String) (h1 : uid ∉ users) (h2 : uid ∉ admins) :
    (handleMessageGate log admins users hasProfile f uid input).2
      = HandlerOutcome.accessDenied
  ∧ (handleMessageGate log admins users hasProfile f uid input).1
      = log ++ [(uid, input)]
  ∧ (∀ userName : String,
      containsSub (toString uid).toList
        (sendWelcomeDenial userName uid).toList = true) := by
  refine ⟨?_, rfl, ?_⟩
  · show dispatch admins users hasProfile f uid input = HandlerOutcome.accessDenied
    unfold dispatch
    rw [if_pos ⟨h1, h2⟩]
  · intro userName
    have h3 : (sendWelcomeDenial userName uid).toList
        = (userName.toList ++ ", ваш user_id: ".toList) ++ (toString uid).toList
          ++ "\nИзвините, у вас нет доступа.".toList := by
      simp [sendWelcomeDenial, String.toList, String.data_append]
    rw [h3]
    exact containsSub_append _ _ _

/-- Witness for C9's amended theorem. -/
theorem access_gate_denies_and_stops_witness :
    (handleMessageGate [] [1] [2] true SessionFlags.clear 7 "привет").2
      = HandlerOutcome.accessDenied :=
  (access_gate_denies_and_stops [] [1] [2] true SessionFlags.clear 7 "привет"
    (by decide) (by decide)).1

/-- C10: in the sweep the `reminder_sent_at` stamp is committed before the
send is attempted, so even when the send raises, the row carries the stamp,
is excluded from every sweep for the next 24 hours, and the failed reminder
is not retried within that window. -/
theorem stamp_before_send_excludes_24h (now t2 : Int) (r : RemRow)
    (hov : isOverdue now r = true) (ht : t2 ≤ now + 24) :
    (remindRow now r).reminder_sent_at = some now
  ∧ isOverdue t2 (remindRow now r) = false
  ∧ runEvents r [RemEvent.sweepFailSend now, RemEvent.sweepSend t2] = [] := by
  have hno : isOverdue t2 (remindRow now r) = false := by
    unfold isOverdue remindRow
    have hd : decide (now < t2 - 24) = false := by
      rw [decide_eq_false_iff_not]
      omega
    simp [hd]
  refine ⟨rfl, hno, ?_⟩
  simp only [runEvents, if_pos hov]
  rw [if_neg (by rw [hno]; exact Bool.false_ne_true)]

/-- Witness for C10: a pending row stamped at hour 30 is skipped by a sweep
at hour 50. -/
theorem stamp_before_send_excludes_24h_witness :
    (remindRow 30 (RemRow.mk "pending" 0 none)).reminder_sent_at = some 30
  ∧ isOverdue 50 (remindRow 30 (RemRow.mk "pending" 0 none)) = false
  ∧ runEvents (RemRow.mk "pending" 0 none)
      [RemEvent.sweepFailSend 30, RemEvent.sweepSend 50] = [] :=
  stamp_before_send_excludes_24h 30 50 (RemRow.mk "pending" 0 none)
    (by decide) (by decide)

end BotModel
